import Mathlib

/-!
Verification of the DroneBridge edge agent against its specification.

The Go sources are shallowly embedded: pure computations become Lean
functions on Nat / Int / List Nat (bytes), and the relevant stateful loops
become explicit step functions on small state structures.  Machine-integer
casts are modelled with explicit reduction modulo two to the word size.
-/

namespace DroneBridge

set_option maxRecDepth 400000

/-! ## Hex digits and token decoding

Embeds the token handling of `sendMavlinkSessionHeartbeat`
(internal/forwarder/forwarder.go): each of the 32 token bytes is produced
by Go `fmt.Sscanf(tokenHex[i*2:i*2+2], "%02x", &tokenBinary[i])`, which
for a two-character slice reads up to two hexadecimal digits (upper or
lower case); if no digit can be read the destination byte keeps its zero
initialisation.  (Sscanf leading-whitespace skipping is not modelled;
session tokens contain no whitespace.) -/

/-- Hexadecimal digit test, on the character code (48-57 for 0-9, 97-102
for a-f, 65-70 for A-F). -/
def isHexDigitChar (c : Char) : Bool :=
  decide ((48 ≤ c.toNat ∧ c.toNat ≤ 57) ∨ (97 ≤ c.toNat ∧ c.toNat ≤ 102) ∨
    (65 ≤ c.toNat ∧ c.toNat ≤ 70))

/-- Lower-case hexadecimal digit test (Go session tokens are produced
lower-case). -/
def isLowerHexDigitChar (c : Char) : Bool :=
  decide ((48 ≤ c.toNat ∧ c.toNat ≤ 57) ∨ (97 ≤ c.toNat ∧ c.toNat ≤ 102))

def hexDigitVal (c : Char) : Nat :=
  if 48 ≤ c.toNat ∧ c.toNat ≤ 57 then c.toNat - 48
  else if 97 ≤ c.toNat ∧ c.toNat ≤ 102 then c.toNat - 97 + 10
  else if 65 ≤ c.toNat ∧ c.toNat ≤ 70 then c.toNat - 65 + 10
  else 0

/-- Model of `fmt.Sscanf(s, "%02x", &b)` on a two-character slice. -/
def sscanfHexPair (c1 c2 : Char) : Nat :=
  if isHexDigitChar c1 && isHexDigitChar c2 then 16 * hexDigitVal c1 + hexDigitVal c2
  else if isHexDigitChar c1 then hexDigitVal c1
  else 0

/-- Character of a string at byte index `i` (tokens are ASCII, so Go byte
indexing and character indexing coincide). -/
def charAtD (s : String) (i : Nat) : Char :=
  s.toList.getD i ' '

/-- The 32 token bytes computed by the decoding loop `for i := 0; i < 32;
i++` in `sendMavlinkSessionHeartbeat`. -/
def tokenBinaryOf (tokenHex : String) : List Nat :=
  (List.range 32).map (fun i => sscanfHexPair (charAtD tokenHex (2 * i)) (charAtD tokenHex (2 * i + 1)))

/-- Hex-decoding of the first 64 characters of a string into 32 bytes,
byte `i` from the character pair at positions `2*i, 2*i+1`.  This is the
claim-side reference decoder. -/
def hexDecode64 (s : String) : List Nat :=
  (List.range 32).map (fun i => 16 * hexDigitVal (charAtD s (2 * i)) + hexDigitVal (charAtD s (2 * i + 1)))

/-- Pairwise hex decoding of a character list (reference decoder in
structural form, used to relate decoding and encoding). -/
def decodeHexPairs : List Char → List Nat
  | c1 :: c2 :: rest => (16 * hexDigitVal c1 + hexDigitVal c2) :: decodeHexPairs rest
  | _ => []

/-! ## SESSION_HEARTBEAT emission (forwarder.go, sendMavlinkSessionHeartbeat) -/

/-- Payload of the custom MAVLink message `MessageSessionHeartbeat`
(internal/mavlink_custom): token as 32 raw bytes, `expires_at` as u32,
`sequence` as u16. -/
structure SessionHeartbeatMsg where
  token : List Nat
  expiresAt : Nat
  sequence : Nat
deriving DecidableEq, Repr

/-- One tick of the session-heartbeat loop: given the current session
token string and expiry (unix seconds, from `GetSessionInfo`), either emit
a `SESSION_HEARTBEAT` message or skip the tick.  Mirrors the loop body of
`sendMavlinkSessionHeartbeat`: an empty token skips (no session yet); a
token shorter than 64 characters logs a warning and skips; otherwise the
first 64 characters are hex-decoded into the 32 token bytes and the expiry
is truncated to u32 by the Go conversion `uint32(expiresAt.Unix())`. -/
def heartbeatTick (tokenHex : String) (expiresUnix : Int) (sequence : Nat) :
    Option SessionHeartbeatMsg :=
  if tokenHex = "" then none
  else if 64 ≤ tokenHex.length then
    some ⟨tokenBinaryOf tokenHex, (expiresUnix % (2 ^ 32 : Int)).toNat, sequence⟩
  else none

/-! ## Custom MAVLink dialect extension (internal/mavlink_custom) -/

/-- `MessageSessionHeartbeat.GetID` in internal/mavlink_custom. -/
def sessionHeartbeatMsgID : Nat := 42999

/-- Little-endian bytes of a u16 value. -/
def u16le (n : Nat) : List Nat := [n % 256, n / 256 % 256]

/-- Little-endian bytes of a u32 value. -/
def u32le (n : Nat) : List Nat := [n % 256, n / 256 % 256, n / 2 ^ 16 % 256, n / 2 ^ 24 % 256]

/-- Wire payload of the SESSION_HEARTBEAT message: the struct fields in
declaration order, `{Token [32]byte, ExpiresAt uint32, Sequence uint16}`. -/
def encodeSessionHeartbeat (m : SessionHeartbeatMsg) : List Nat :=
  m.token ++ u32le m.expiresAt ++ u16le m.sequence

/-- `GetCombinedDialect` (internal/mavlink_custom): returns the base
dialect unchanged when id 42999 is already present, else the base messages
with the custom message appended.  A dialect is modelled by its list of
message ids. -/
def getCombinedDialect (baseIds : List Nat) : List Nat :=
  if sessionHeartbeatMsgID ∈ baseIds then baseIds else baseIds ++ [sessionHeartbeatMsgID]

/-! ## Upstream forwarding step (forwarder.go, receiveAndForward)

The `EventFrame` branch of `receiveAndForward` is embedded as a step
function on the forwarder state.  A frame carries the MAVLink system id
and sequence number read from it.  Metrics counters (`IncSent`,
`IncFailedUnhealthy`, `IncFailedSend`) are modelled as totals. -/

structure Frame where
  sysId : Nat
  seq : Nat
deriving DecidableEq, Repr

structure FwdState where
  /-- `lastSeqNum`: association list mapping a system id to the last seen
  sequence number, modelling the Go map `map[uint8]uint8`. -/
  lastSeqNum : List (Nat × Nat)
  messageCount : Nat
  forwardedCount : Nat
  sent : Nat
  failedUnhealthy : Nat
  failedSend : Nat
deriving DecidableEq, Repr

/-- Lookup `lastSeqNum[sysID]`, `none` models the map miss case. -/
def lookupSeq (m : List (Nat × Nat)) (k : Nat) : Option Nat :=
  (m.find? (fun p => p.fst == k)).map Prod.snd

/-- `f.lastSeqNum[sysID] = seqNum`: update in place or insert. -/
def insertSeq (m : List (Nat × Nat)) (k v : Nat) : List (Nat × Nat) :=
  if (m.find? (fun p => p.fst == k)).isSome then
    m.map (fun p => if p.fst == k then (k, v) else p)
  else m ++ [(k, v)]

inductive ForwardDecision where
  | skippedGCS
  | skippedDuplicate
  | droppedUnhealthy
  | forwarded
  | sendFailed
deriving DecidableEq, Repr

/-- `WriteFrameAll` on the sender node is invoked exactly when the frame
reaches the send step, whether or not the UDP write succeeds. -/
def wroteToSender : ForwardDecision → Bool
  | .forwarded => true
  | .sendFailed => true
  | _ => false

/-- One `EventFrame` iteration of `receiveAndForward`: count the message,
drop frames from our own GCS identity (`sysID == 255`), drop duplicates by
`(system_id, sequence)`, record the new sequence, then either drop as
unhealthy (`IncFailedUnhealthy`), forward (`IncSent`) or fail the send
(`IncFailedSend`).  `healthy` is the `isHealthy` flag and `sendOk` the
outcome of `senderNode.WriteFrameAll`. -/
def processFrame (st : FwdState) (fr : Frame) (healthy sendOk : Bool) :
    ForwardDecision × FwdState :=
  let st1 : FwdState := { st with messageCount := st.messageCount + 1 }
  if fr.sysId = 255 then (.skippedGCS, st1)
  else
    let dup : Bool := match lookupSeq st1.lastSeqNum fr.sysId with
      | some last => last == fr.seq
      | none => false
    if dup then (.skippedDuplicate, st1)
    else
      let st2 : FwdState :=
        { st1 with lastSeqNum := insertSeq st1.lastSeqNum fr.sysId fr.seq,
                   forwardedCount := st1.forwardedCount + 1 }
      if healthy = false then
        (.droppedUnhealthy, { st2 with failedUnhealthy := st2.failedUnhealthy + 1 })
      else if sendOk then (.forwarded, { st2 with sent := st2.sent + 1 })
      else (.sendFailed, { st2 with failedSend := st2.failedSend + 1 })

/-- The forwarder state at startup (`New` in forwarder.go): empty dedup
map, zero counters. -/
def initialFwdState : FwdState := ⟨[], 0, 0, 0, 0, 0⟩

/-! ## Liveness monitor (forwarder.go, monitorIPChange)

The `checkIP` closure compares the previous and current local IP and, on a
change, closes the sender node and rebuilds it with `OutSystemID: 1`
(a literal constant in the `NodeConf`, annotated in the source as a
placeholder for the discovered Pixhawk system id). -/

/-- The `OutSystemID` the rebuilt sender node is created with inside
`monitorIPChange`. -/
def rebuiltSenderOutSystemID : Nat := 1

/-- The `OutSystemID` computed in `New` (forwarder.go): the system id
discovered from the first Pixhawk heartbeat via `web.GetPixhawkSystemID`,
falling back to 1 when discovery has not happened (id 0). -/
def newSenderOutSystemID (discovered : Nat) : Nat :=
  if discovered = 0 then 1 else discovered

structure MonitorAction where
  /-- New value published via `metrics.Global.SetIP`, when any. -/
  setIP : Option String
  /-- `OutSystemID` of the freshly created sender node, when the sender is
  rebuilt. -/
  rebuildSenderWithSysID : Option Nat
  /-- Whether `authClient.ForceReconnect` is invoked. -/
  forceReconnect : Bool
  markHealthy : Bool
deriving DecidableEq, Repr

/-- The `checkIP` closure of `monitorIPChange`, as a function of the
tracked previous IP and the currently detected local IP. -/
def monitorCheckIP (previousIP currentIP : String) : MonitorAction :=
  if previousIP = "" then ⟨some currentIP, none, false, true⟩
  else if previousIP ≠ currentIP then
    ⟨some currentIP, some rebuiltSenderOutSystemID, true, true⟩
  else ⟨none, none, false, false⟩

/-! ## Session refresh failure handling (part_005: sendRefresh, keepaliveLoop) -/

/-- Error codes from auth/protocol.go. -/
def ErrSessionExpired : Nat := 0x06
def ErrInvalidToken : Nat := 0x07
def ResultSuccess : Nat := 0x00
def ResultFailure : Nat := 0x01

/-- `SessionRefreshAck` fields relevant to refresh handling. -/
structure SessionRefreshAckM where
  result : Nat
  errorCode : Nat
  expiresAt : Nat
  interval : Nat
deriving DecidableEq, Repr

/-- `RefreshError` carries the protocol error code (0 when the failure is
network-level rather than a protocol rejection). -/
structure RefreshErrorM where
  errorCode : Nat
deriving DecidableEq, Repr

/-- `sendRefresh` once a `SESSION_REFRESH_ACK` has been parsed: a reply
whose result is not `ResultSuccess` yields `RefreshError` with the
reply error code; a success reply yields no error (the expiry is
updated). -/
def sendRefreshReplyOutcome (ack : SessionRefreshAckM) : Option RefreshErrorM :=
  if ack.result ≠ ResultSuccess then some ⟨ack.errorCode⟩ else none

structure KeepaliveAction where
  /-- Whether the TCP connection is closed by the error handler. -/
  closeConnection : Bool
  /-- Whether `authenticate()` is called. -/
  callAuthenticate : Bool
  /-- Whether `reconnectTCP()` is attempted. -/
  reconnectTCP : Bool
deriving DecidableEq, Repr

/-- The error handling block of `keepaliveLoop` when `sendRefresh` fails
with a `RefreshError`: error codes `ErrInvalidToken` and
`ErrSessionExpired` are session-invalid (connection kept, full re-auth);
every other code is treated as a network error (connection closed, then
TCP reconnect if the token is still locally valid, else re-auth;
`authenticate` also runs when the reconnect attempt fails). -/
def keepaliveOnRefreshError (e : RefreshErrorM) (tokenValidLocally reconnectOk : Bool) :
    KeepaliveAction :=
  if e.errorCode = ErrInvalidToken ∨ e.errorCode = ErrSessionExpired then
    ⟨false, true, false⟩
  else if tokenValidLocally then ⟨true, !reconnectOk, true⟩
  else ⟨true, true, false⟩

/-! ## Secret storage (internal/auth/secret_storage.go)

The on-disk secret file is modelled by its parsed JSON record plus the
file mode; `json.Marshal` followed by `json.Unmarshal` on the
`DroneSecret` struct is the identity on these fields, so the byte-level
JSON round trip of the Go standard library is not re-modelled. -/

structure DroneSecret where
  droneUUID : String
  secretKey : String
  createdAt : Nat
deriving DecidableEq, Repr

structure SecretFileState where
  record : DroneSecret
  mode : Nat
deriving DecidableEq, Repr

/-- `SaveSecret`: writes the record via `os.WriteFile(filePath, data,
0600)`.  `os.WriteFile` creates a missing file with the given mode but
truncates an existing file without changing its permissions, so the
resulting mode is 0600 only when no secret file existed before the
write. -/
def SaveSecret (droneUUID secretKey : String) (now : Nat)
    (fs : Option SecretFileState) : Option SecretFileState :=
  some ⟨⟨droneUUID, secretKey, now⟩,
    match fs with
    | some f => f.mode
    | none => 0o600⟩

/-- `LoadSecret`: fails when the file is absent or when either field of
the parsed record is empty, otherwise returns `(uuid, secretKey)`. -/
def LoadSecret (fs : Option SecretFileState) : Except String (String × String) :=
  match fs with
  | none => .error "secret file not found"
  | some f =>
      if f.record.droneUUID = "" ∨ f.record.secretKey = "" then
        .error "invalid secret file: missing uuid or key"
      else .ok (f.record.droneUUID, f.record.secretKey)

/-! ## API key response parsing (auth/protocol.go) -/

def msgAPIKeyResponse : Nat := 0x21

/-- Byte of a packet at index `i`; indices are always guarded by the
length checks the Go parser performs. -/
def byteAt (d : List Nat) (i : Nat) : Nat := d.getD i 0

/-- `binary.LittleEndian.Uint16(data[i : i+2])`. -/
def readU16LE (d : List Nat) (i : Nat) : Nat := byteAt d i + 256 * byteAt d (i + 1)

/-- `binary.LittleEndian.Uint64(data[i : i+8])`. -/
def readU64LE (d : List Nat) (i : Nat) : Nat :=
  byteAt d i + 256 * byteAt d (i + 1) + 256 ^ 2 * byteAt d (i + 2) + 256 ^ 3 * byteAt d (i + 3) +
    256 ^ 4 * byteAt d (i + 4) + 256 ^ 5 * byteAt d (i + 5) + 256 ^ 6 * byteAt d (i + 6) +
    256 ^ 7 * byteAt d (i + 7)

structure APIKeyResponseM where
  result : Nat
  errorCode : Nat
  apiKey : List Nat
  expiresAt : Nat
deriving DecidableEq, Repr

/-- `parseAPIKeyResponseFromOffset`: type byte at `offset`, result and
error-code bytes, then on success a u16-length-prefixed key and a u64
expiry; on failure the key stays empty and the expiry zero. -/
def parseAPIKeyResponseFromOffset (data : List Nat) (offset : Nat) :
    Except String APIKeyResponseM :=
  if byteAt data offset ≠ msgAPIKeyResponse then .error "invalid message type"
  else if data.length < offset + 2 then .error "packet too short for result"
  else
    let result := byteAt data (offset + 1)
    if data.length < offset + 3 then .error "packet too short for error code"
    else
      let errorCode := byteAt data (offset + 2)
      if result = 0 then
        if data.length < offset + 5 then .error "packet too short for key length"
        else
          let keyLen := readU16LE data (offset + 3)
          if data.length < offset + 5 + keyLen then .error "packet too short for key data"
          else if data.length < offset + 5 + keyLen + 8 then
            .error "packet too short for expires-at"
          else
            .ok ⟨result, errorCode, (data.drop (offset + 5)).take keyLen,
                 readU64LE data (offset + 5 + keyLen)⟩
      else .ok ⟨result, errorCode, [], 0⟩

/-- `ParseAPIKeyResponse`: sniff the legacy length-prefixed variant by the
type byte at offset 2; otherwise require the type byte at offset 0. -/
def ParseAPIKeyResponse (data : List Nat) : Except String APIKeyResponseM :=
  if data.length < 1 then .error "packet too short"
  else if 3 ≤ data.length ∧ byteAt data 2 = msgAPIKeyResponse then
    let payloadLength := readU16LE data 0
    if data.length < payloadLength + 2 then .error "packet incomplete"
    else parseAPIKeyResponseFromOffset data 2
  else if byteAt data 0 = msgAPIKeyResponse then parseAPIKeyResponseFromOffset data 0
  else .error "invalid message type"

/-! ## SHA-256 and the combined authentication key (part_005)

`computeCombinedKey` calls `sha256.Sum256` of the Go standard library;
SHA-256 is embedded here as the FIPS 180-4 algorithm the library
implements, on byte lists.  Strings are taken to their UTF-8 bytes as the
Go conversion `[]byte(s)` does. -/

def rotr32 (n x : Nat) : Nat := ((x >>> n) ||| (x <<< (32 - n))) % 2 ^ 32

def compl32 (x : Nat) : Nat := 0xffffffff ^^^ x

def bsig0 (x : Nat) : Nat := rotr32 2 x ^^^ rotr32 13 x ^^^ rotr32 22 x
def bsig1 (x : Nat) : Nat := rotr32 6 x ^^^ rotr32 11 x ^^^ rotr32 25 x
def ssig0 (x : Nat) : Nat := rotr32 7 x ^^^ rotr32 18 x ^^^ (x >>> 3)
def ssig1 (x : Nat) : Nat := rotr32 17 x ^^^ rotr32 19 x ^^^ (x >>> 10)

/-- The 64 SHA-256 round constants of FIPS 180-4 (the first 32 bits of
the fractional parts of the cube roots of the first 64 primes), written
in decimal. -/
def k256 : List Nat :=
  [1116352408, 1899447441, 3049323471, 3921009573, 961987163, 1508970993,
   2453635748, 2870763221, 3624381080, 310598401, 607225278, 1426881987,
   1925078388, 2162078206, 2614888103, 3248222580, 3835390401, 4022224774,
   264347078, 604807628, 770255983, 1249150122, 1555081692, 1996064986,
   2554220882, 2821834349, 2952996808, 3210313671, 3336571891, 3584528711,
   113926993, 338241895, 666307205, 773529912, 1294757372, 1396182291,
   1695183700, 1986661051, 2177026350, 2456956037, 2730485921, 2820302411,
   3259730800, 3345764771, 3516065817, 3600352804, 4094571909, 275423344,
   430227734, 506948616, 659060556, 883997877, 958139571, 1322822218,
   1537002063, 1747873779, 1955562222, 2024104815, 2227730452, 2361852424,
   2428436474, 2756734187, 3204031479, 3329325298]

/-- The eight SHA-256 initial hash values of FIPS 180-4, in decimal. -/
def h256init : List Nat :=
  [1779033703, 3144134277, 1013904242, 2773480762,
   1359893119, 2600822924, 528734635, 1541459225]

/-- Big-endian 32-bit words from a byte list. -/
def bytesToWordsBE : List Nat → List Nat
  | b0 :: b1 :: b2 :: b3 :: rest => (((b0 * 256 + b1) * 256 + b2) * 256 + b3) :: bytesToWordsBE rest
  | _ => []

/-- Extend the 16 block words to the 64-entry message schedule. -/
def extendSchedule (w16 : List Nat) : List Nat :=
  (List.range 48).foldl
    (fun w _ =>
      let t := (ssig1 (w.getD (w.length - 2) 0) + w.getD (w.length - 7) 0 +
                ssig0 (w.getD (w.length - 15) 0) + w.getD (w.length - 16) 0) % 2 ^ 32
      w ++ [t])
    w16

/-- The 64-round compression of one 512-bit block. -/
def compressBlock (h : List Nat) (block : List Nat) : List Nat :=
  let w := extendSchedule (bytesToWordsBE block)
  let s := (k256.zip w).foldl
    (fun s kw =>
      let a := s.getD 0 0
      let b := s.getD 1 0
      let c := s.getD 2 0
      let d := s.getD 3 0
      let e := s.getD 4 0
      let f := s.getD 5 0
      let g := s.getD 6 0
      let hh := s.getD 7 0
      let t1 := (hh + bsig1 e + ((e &&& f) ^^^ (compl32 e &&& g)) + kw.fst + kw.snd) % 2 ^ 32
      let t2 := (bsig0 a + ((a &&& b) ^^^ (a &&& c) ^^^ (b &&& c))) % 2 ^ 32
      [(t1 + t2) % 2 ^ 32, a, b, c, (d + t1) % 2 ^ 32, e, f, g])
    h
  (h.zip s).map (fun p => (p.fst + p.snd) % 2 ^ 32)

/-- Big-endian 64-bit length field of the padding. -/
def be64 (n : Nat) : List Nat :=
  [n / 2 ^ 56 % 256, n / 2 ^ 48 % 256, n / 2 ^ 40 % 256, n / 2 ^ 32 % 256,
   n / 2 ^ 24 % 256, n / 2 ^ 16 % 256, n / 2 ^ 8 % 256, n % 256]

/-- FIPS 180-4 padding: a 0x80 byte, zeros to 56 mod 64, and the bit
length big-endian. -/
def sha256Pad (m : List Nat) : List Nat :=
  m ++ [0x80] ++ List.replicate ((64 - (m.length + 9) % 64) % 64) 0 ++ be64 (8 * m.length)

/-- Split a byte list into 64-byte blocks.  The fuel argument only bounds
the recursion depth; every call site passes at least the list length, and
each step consumes 64 bytes, so the fuel never runs out. -/
def chunks64 : Nat → List Nat → List (List Nat)
  | 0, _ => []
  | _, [] => []
  | fuel + 1, l => l.take 64 :: chunks64 fuel (l.drop 64)

/-- SHA-256 digest (32 bytes) of a byte list. -/
def sha256 (m : List Nat) : List Nat :=
  let padded := sha256Pad m
  ((chunks64 padded.length padded).foldl compressBlock h256init).flatMap
    (fun w => [w / 2 ^ 24 % 256, w / 2 ^ 16 % 256, w / 2 ^ 8 % 256, w % 256])

/-- Lower-case hex character of a value below 16 (Go encoding/hex). -/
def hexCharOf (v : Nat) : Char :=
  if v < 10 then Char.ofNat (48 + v) else Char.ofNat (87 + v)

/-- `hex.EncodeToString` of the Go standard library, to characters. -/
def bytesToHexChars (bs : List Nat) : List Char :=
  bs.flatMap (fun b => [hexCharOf (b / 16 % 16), hexCharOf (b % 16)])

/-- UTF-8 encoding of one character, as the Go string-to-bytes conversion
produces it. -/
def charUTF8 (c : Char) : List Nat :=
  let n := c.toNat
  if n < 0x80 then [n]
  else if n < 0x800 then [0xC0 ||| (n >>> 6), 0x80 ||| (n &&& 0x3F)]
  else if n < 0x10000 then
    [0xE0 ||| (n >>> 12), 0x80 ||| ((n >>> 6) &&& 0x3F), 0x80 ||| (n &&& 0x3F)]
  else
    [0xF0 ||| (n >>> 18), 0x80 ||| ((n >>> 12) &&& 0x3F), 0x80 ||| ((n >>> 6) &&& 0x3F),
     0x80 ||| (n &&& 0x3F)]

/-- `[]byte(s)` for a Go string: its UTF-8 bytes. -/
def strBytes (s : String) : List Nat := s.toList.flatMap charUTF8

/-- `computeCombinedKey` (part_005): `SHA256(sharedKey + privateKey)` as a
lower-case hex string. -/
def computeCombinedKey (sharedKey privateKey : String) : String :=
  String.mk (bytesToHexChars (sha256 (strBytes (sharedKey ++ privateKey))))

/-- The HMAC key selection in `authenticate` (part_005): the combined key
when a shared secret is configured, otherwise the raw secret key. -/
def authKeyFor (sharedSecret secret : String) : String :=
  if sharedSecret ≠ "" then computeCombinedKey sharedSecret secret else secret

/-! ## Theorems -/

/-- C10: a non-empty session token shorter than 64 characters makes the
session-heartbeat loop skip the tick without emitting a frame, and a
SESSION_HEARTBEAT is emitted only when the token has at least 64
characters. -/
theorem c10_short_token_skips_tick :
    (∀ (tok : String) (exp : Int) (seq : Nat), tok ≠ "" → tok.length < 64 →
      heartbeatTick tok exp seq = none) ∧
    (∀ (tok : String) (exp : Int) (seq : Nat) (m : SessionHeartbeatMsg),
      heartbeatTick tok exp seq = some m → 64 ≤ tok.length) := by
  constructor
  · intro tok exp seq hne hshort
    unfold heartbeatTick
    rw [if_neg hne, if_neg (by omega)]
  · intro tok exp seq m h
    unfold heartbeatTick at h
    by_cases h1 : tok = ""
    · rw [if_pos h1] at h
      exact absurd h (by simp)
    · rw [if_neg h1] at h
      by_cases h2 : 64 ≤ tok.length
      · exact h2
      · rw [if_neg h2] at h
        exact absurd h (by simp)

theorem c10_short_token_skips_tick_witness :
    heartbeatTick "abc" 0 0 = none ∧
    64 ≤ ("0123456789abcdef0123456789abcdef0123456789abcdef0123456789abcdef" : String).length :=
  ⟨c10_short_token_skips_tick.1 "abc" 0 0 (by decide) (by decide),
   c10_short_token_skips_tick.2
     "0123456789abcdef0123456789abcdef0123456789abcdef0123456789abcdef" 0 0
     ⟨tokenBinaryOf "0123456789abcdef0123456789abcdef0123456789abcdef0123456789abcdef", 0, 0⟩
     (by decide)⟩

/-- C4: the custom MAVLink message registered by the dialect extension
and emitted by the sender node has id 42999, and its payload is a 32-byte
token followed by a u32 expires-at and a u16 sequence. -/
theorem c4_custom_message_id_payload :
    sessionHeartbeatMsgID = 42999 ∧
    (∀ baseIds : List Nat, sessionHeartbeatMsgID ∈ getCombinedDialect baseIds) ∧
    (∀ m : SessionHeartbeatMsg, m.token.length = 32 →
      (encodeSessionHeartbeat m).length = 32 + 4 + 2) ∧
    (∀ n : Nat, (u32le n).length = 4 ∧ ∀ b ∈ u32le n, b < 256) ∧
    (∀ n : Nat, (u16le n).length = 2 ∧ ∀ b ∈ u16le n, b < 256) := by
  refine ⟨rfl, ?_, ?_, ?_, ?_⟩
  · intro baseIds
    unfold getCombinedDialect
    by_cases h : sessionHeartbeatMsgID ∈ baseIds
    · rwa [if_pos h]
    · rw [if_neg h]
      exact List.mem_append_right _ (List.mem_singleton.mpr rfl)
  · intro m h
    simp [encodeSessionHeartbeat, u32le, u16le, h]
  · intro n
    refine ⟨rfl, ?_⟩
    intro b hb
    simp only [u32le, List.mem_cons, List.not_mem_nil, or_false] at hb
    rcases hb with h | h | h | h <;> subst h <;> exact Nat.mod_lt _ (by norm_num)
  · intro n
    refine ⟨rfl, ?_⟩
    intro b hb
    simp only [u16le, List.mem_cons, List.not_mem_nil, or_false] at hb
    rcases hb with h | h <;> subst h <;> exact Nat.mod_lt _ (by norm_num)

theorem c4_custom_message_id_payload_witness :
    (encodeSessionHeartbeat ⟨List.replicate 32 0, 5, 1⟩).length = 32 + 4 + 2 :=
  c4_custom_message_id_payload.2.2.1 ⟨List.replicate 32 0, 5, 1⟩ (by decide)

/-- C3 evaluated at the failing input: after an IP change from 10.0.0.5
to 10.0.0.9 with a discovered flight-controller system id of 7, the
monitor rebuilds the sender with the literal `OutSystemID` 1, which is
not the discovered value used by `New`. -/
theorem c3_rebuilt_sender_sysid_is_constant :
    monitorCheckIP "10.0.0.5" "10.0.0.9" =
      ⟨some "10.0.0.9", some rebuiltSenderOutSystemID, true, true⟩ ∧
    rebuiltSenderOutSystemID = 1 ∧
    newSenderOutSystemID 7 = 7 ∧
    rebuiltSenderOutSystemID ≠ newSenderOutSystemID 7 := by
  refine ⟨?_, rfl, rfl, by decide⟩
  unfold monitorCheckIP
  rw [if_neg (by decide), if_pos (by decide)]

/-- C2: a refresh reply with result failure and error code 0x07 (invalid
token) or 0x06 (session expired) yields a `RefreshError` carrying that
code, and the keepalive loop then keeps the TCP connection open and calls
`authenticate`. -/
theorem c2_session_invalid_reauth_no_close (ack : SessionRefreshAckM)
    (tokenValid reconnectOk : Bool) (hres : ack.result = ResultFailure)
    (hcode : ack.errorCode = ErrInvalidToken ∨ ack.errorCode = ErrSessionExpired) :
    sendRefreshReplyOutcome ack = some ⟨ack.errorCode⟩ ∧
    keepaliveOnRefreshError ⟨ack.errorCode⟩ tokenValid reconnectOk =
      ⟨false, true, false⟩ := by
  constructor
  · unfold sendRefreshReplyOutcome
    have h : ack.result ≠ ResultSuccess := by rw [hres]; decide
    rw [if_pos h]
  · unfold keepaliveOnRefreshError
    rw [if_pos hcode]

theorem c2_session_invalid_reauth_no_close_witness :
    sendRefreshReplyOutcome ⟨1, 7, 0, 0⟩ = some ⟨7⟩ ∧
    keepaliveOnRefreshError ⟨7⟩ true true = ⟨false, true, false⟩ :=
  c2_session_invalid_reauth_no_close ⟨1, 7, 0, 0⟩ true true rfl (Or.inl rfl)

/-- C8 counterexample: the round trip fails for the empty uuid (the
save succeeds but the load rejects the record), and the owner-only mode
is not guaranteed either: saving over a pre-existing secret file with
mode 0644 leaves the mode 0644, because `os.WriteFile` truncates an
existing file without changing its permissions. -/
theorem c8_counterexample_empty_uuid_and_mode :
    LoadSecret (SaveSecret "" "key-1" 0 none) ≠ Except.ok ("", "key-1") ∧
    (SaveSecret "u-1" "key-1" 9 (some ⟨⟨"u-0", "old-key", 0⟩, 0o644⟩)).map
      SecretFileState.mode = some 0o644 ∧
    (SaveSecret "u-1" "key-1" 9 (some ⟨⟨"u-0", "old-key", 0⟩, 0o644⟩)).map
      SecretFileState.mode ≠ some 0o600 := by
  refine ⟨by simp [LoadSecret, SaveSecret], rfl, by decide⟩

/-- C8 (amended): for every non-empty uuid and non-empty secret key, a
save followed by a load returns the pair regardless of the prior file
state; the file carries mode 0600 when it is freshly created, while a
save over an existing file keeps that file's previous mode. -/
theorem c8_save_load_roundtrip (u k : String) (now : Nat)
    (fs : Option SecretFileState) (hu : u ≠ "") (hk : k ≠ "") :
    LoadSecret (SaveSecret u k now fs) = Except.ok (u, k) ∧
    (SaveSecret u k now none).map SecretFileState.mode = some 0o600 ∧
    (∀ f : SecretFileState,
      (SaveSecret u k now (some f)).map SecretFileState.mode = some f.mode) := by
  refine ⟨?_, rfl, fun f => rfl⟩
  rcases fs with _ | f <;> simp [LoadSecret, SaveSecret, hu, hk]

theorem c8_save_load_roundtrip_witness :
    LoadSecret (SaveSecret "00000001-0000-0000-0000-000000000001" "secret-key" 5 none) =
      Except.ok ("00000001-0000-0000-0000-000000000001", "secret-key") ∧
    (SaveSecret "00000001-0000-0000-0000-000000000001" "secret-key" 5 none).map
      SecretFileState.mode = some 0o600 ∧
    (SaveSecret "00000001-0000-0000-0000-000000000001" "secret-key" 5
        (some ⟨⟨"u-0", "old-key", 0⟩, 0o644⟩)).map
      SecretFileState.mode = some 0o644 := by
  have h := c8_save_load_roundtrip "00000001-0000-0000-0000-000000000001" "secret-key" 5 none
    (by decide) (by decide)
  exact ⟨h.1, h.2.1, h.2.2 ⟨⟨"u-0", "old-key", 0⟩, 0o644⟩⟩

/-- C6: a frame whose system id is 255 is never written to the sender
socket: the step returns the GCS-skip decision before touching the dedup
table, the forwarded count, or any send counter. -/
theorem c6_gcs_frames_never_forwarded (st : FwdState) (fr : Frame)
    (healthy sendOk : Bool) (h255 : fr.sysId = 255) :
    wroteToSender (processFrame st fr healthy sendOk).fst = false ∧
    (processFrame st fr healthy sendOk).fst = ForwardDecision.skippedGCS ∧
    (processFrame st fr healthy sendOk).snd.lastSeqNum = st.lastSeqNum ∧
    (processFrame st fr healthy sendOk).snd.forwardedCount = st.forwardedCount ∧
    (processFrame st fr healthy sendOk).snd.sent = st.sent ∧
    (processFrame st fr healthy sendOk).snd.failedUnhealthy = st.failedUnhealthy ∧
    (processFrame st fr healthy sendOk).snd.failedSend = st.failedSend := by
  simp [processFrame, h255, wroteToSender]

theorem c6_gcs_frames_never_forwarded_witness :
    wroteToSender (processFrame initialFwdState ⟨255, 1⟩ true true).fst = false ∧
    (processFrame initialFwdState ⟨255, 1⟩ true true).fst = ForwardDecision.skippedGCS ∧
    (processFrame initialFwdState ⟨255, 1⟩ true true).snd.lastSeqNum =
      initialFwdState.lastSeqNum ∧
    (processFrame initialFwdState ⟨255, 1⟩ true true).snd.forwardedCount =
      initialFwdState.forwardedCount ∧
    (processFrame initialFwdState ⟨255, 1⟩ true true).snd.sent = initialFwdState.sent ∧
    (processFrame initialFwdState ⟨255, 1⟩ true true).snd.failedUnhealthy =
      initialFwdState.failedUnhealthy ∧
    (processFrame initialFwdState ⟨255, 1⟩ true true).snd.failedSend =
      initialFwdState.failedSend :=
  c6_gcs_frames_never_forwarded initialFwdState ⟨255, 1⟩ true true rfl

lemma lookupSeq_map_update (m : List (Nat × Nat)) (k v : Nat)
    (h : (m.find? (fun p => p.fst == k)).isSome) :
    lookupSeq (m.map (fun p => if p.fst == k then (k, v) else p)) k = some v := by
  induction m with
  | nil => simp [List.find?] at h
  | cons p rest ih =>
    cases hp : (p.fst == k) with
    | true => simp [lookupSeq, List.find?, hp]
    | false =>
      have hrest : (rest.find? (fun p => p.fst == k)).isSome := by
        simpa [List.find?, hp] using h
      simpa [lookupSeq, List.find?, hp] using ih hrest

lemma lookupSeq_append_new (m : List (Nat × Nat)) (k v : Nat)
    (h : m.find? (fun p => p.fst == k) = none) :
    lookupSeq (m ++ [(k, v)]) k = some v := by
  induction m with
  | nil => simp [lookupSeq, List.find?]
  | cons p rest ih =>
    cases hp : (p.fst == k) with
    | true => simp [List.find?, hp] at h
    | false =>
      have hrest : rest.find? (fun p => p.fst == k) = none := by
        simpa [List.find?, hp] using h
      simpa [lookupSeq, List.find?, hp] using ih hrest

/-- Recording a sequence number makes it the looked-up value for that
system id, whether the entry is updated or freshly inserted. -/
lemma lookupSeq_insertSeq (m : List (Nat × Nat)) (k v : Nat) :
    lookupSeq (insertSeq m k v) k = some v := by
  unfold insertSeq
  by_cases h : (m.find? (fun p => p.fst == k)).isSome
  · rw [if_pos h]
    exact lookupSeq_map_update m k v h
  · rw [if_neg h]
    exact lookupSeq_append_new m k v (Option.not_isSome_iff_eq_none.mp h)

/-- C5: a frame repeating the recorded `(system_id, sequence)` pair is
dropped as a duplicate without counting it in `sent` or touching the
dedup table; a frame with a different sequence records the new pair and
is forwarded and counted; concretely, of two frames with system id 1 and
sequence 42 the first is forwarded and counted and the second is
dropped. -/
theorem c5_duplicate_detection :
    (∀ (st : FwdState) (fr : Frame) (healthy sendOk : Bool), fr.sysId ≠ 255 →
      lookupSeq st.lastSeqNum fr.sysId = some fr.seq →
      (processFrame st fr healthy sendOk).fst = ForwardDecision.skippedDuplicate ∧
      (processFrame st fr healthy sendOk).snd.sent = st.sent ∧
      (processFrame st fr healthy sendOk).snd.lastSeqNum = st.lastSeqNum ∧
      wroteToSender (processFrame st fr healthy sendOk).fst = false) ∧
    (∀ (st : FwdState) (fr : Frame), fr.sysId ≠ 255 →
      lookupSeq st.lastSeqNum fr.sysId ≠ some fr.seq →
      (processFrame st fr true true).fst = ForwardDecision.forwarded ∧
      (processFrame st fr true true).snd.sent = st.sent + 1 ∧
      lookupSeq (processFrame st fr true true).snd.lastSeqNum fr.sysId = some fr.seq) ∧
    ((processFrame initialFwdState ⟨1, 42⟩ true true).fst = ForwardDecision.forwarded ∧
     (processFrame initialFwdState ⟨1, 42⟩ true true).snd.sent = 1 ∧
     (processFrame (processFrame initialFwdState ⟨1, 42⟩ true true).snd ⟨1, 42⟩
        true true).fst = ForwardDecision.skippedDuplicate ∧
     (processFrame (processFrame initialFwdState ⟨1, 42⟩ true true).snd ⟨1, 42⟩
        true true).snd.sent = 1) := by
  refine ⟨?_, ?_, by decide⟩
  · intro st fr healthy sendOk hne hdup
    simp [processFrame, hne, hdup, wroteToSender]
  · intro st fr hne hdup
    have hbeq : (match lookupSeq st.lastSeqNum fr.sysId with
        | some last => last == fr.seq
        | none => false) = false := by
      rcases hl : lookupSeq st.lastSeqNum fr.sysId with _ | last
      · rfl
      · have : last ≠ fr.seq := by
          intro he
          exact hdup (by rw [hl, he])
        simpa using this
    refine ⟨?_, ?_, ?_⟩ <;>
      simp [processFrame, hne, hbeq, lookupSeq_insertSeq]

theorem c5_duplicate_detection_witness :
    ((processFrame ⟨[(1, 42)], 0, 0, 0, 0, 0⟩ ⟨1, 42⟩ true true).fst =
      ForwardDecision.skippedDuplicate ∧
     (processFrame ⟨[(1, 42)], 0, 0, 0, 0, 0⟩ ⟨1, 42⟩ true true).snd.sent = 0 ∧
     (processFrame ⟨[(1, 42)], 0, 0, 0, 0, 0⟩ ⟨1, 42⟩ true true).snd.lastSeqNum = [(1, 42)] ∧
     wroteToSender (processFrame ⟨[(1, 42)], 0, 0, 0, 0, 0⟩ ⟨1, 42⟩ true true).fst = false) ∧
    ((processFrame initialFwdState ⟨1, 42⟩ true true).fst = ForwardDecision.forwarded ∧
     (processFrame initialFwdState ⟨1, 42⟩ true true).snd.sent = initialFwdState.sent + 1 ∧
     lookupSeq (processFrame initialFwdState ⟨1, 42⟩ true true).snd.lastSeqNum 1 = some 42) :=
  ⟨c5_duplicate_detection.1 ⟨[(1, 42)], 0, 0, 0, 0, 0⟩ ⟨1, 42⟩ true true (by decide) (by decide),
   c5_duplicate_detection.2.1 initialFwdState ⟨1, 42⟩ (by decide) (by decide)⟩

lemma toList_length_eq (s : String) : s.toList.length = s.length := rfl

lemma charAtD_mem_take (s : String) (i : Nat) (h64 : i < 64) (hlen : 64 ≤ s.length) :
    charAtD s i ∈ s.toList.take 64 := by
  have hl : i < s.toList.length := by rw [toList_length_eq]; omega
  have ht : i < (s.toList.take 64).length := by rw [List.length_take]; omega
  have he : charAtD s i = (s.toList.take 64).getD i ' ' := by
    unfold charAtD
    rw [List.getD_eq_getElem _ _ hl, List.getD_eq_getElem _ _ ht]
    exact (List.getElem_take _).symm
  rw [he, List.getD_eq_getElem _ _ ht]
  exact List.getElem_mem ht

/-- Under the hypothesis that the first 64 token characters are hex
digits, the Sscanf-based decoding loop agrees with plain hex decoding. -/
lemma tokenBinaryOf_eq_hexDecode64 (tok : String) (hlen : 64 ≤ tok.length)
    (hhex : ∀ c ∈ tok.toList.take 64, isHexDigitChar c = true) :
    tokenBinaryOf tok = hexDecode64 tok := by
  unfold tokenBinaryOf hexDecode64
  apply List.map_congr_left
  intro i hi
  have hi32 : i < 32 := List.mem_range.mp hi
  have h1 : isHexDigitChar (charAtD tok (2 * i)) = true :=
    hhex _ (charAtD_mem_take tok (2 * i) (by omega) hlen)
  have h2 : isHexDigitChar (charAtD tok (2 * i + 1)) = true :=
    hhex _ (charAtD_mem_take tok (2 * i + 1) (by omega) hlen)
  simp [sscanfHexPair, h1, h2]

lemma hexDigitVal_lt (c : Char) : hexDigitVal c < 16 := by
  unfold hexDigitVal
  split_ifs <;> omega

lemma hexCharOf_hexDigitVal (c : Char) (h : isLowerHexDigitChar c = true) :
    hexCharOf (hexDigitVal c) = c := by
  have h2 : (48 ≤ c.toNat ∧ c.toNat ≤ 57) ∨ (97 ≤ c.toNat ∧ c.toNat ≤ 102) := by
    simpa [isLowerHexDigitChar, decide_eq_true_eq] using h
  rcases h2 with ⟨ha, hb⟩ | ⟨ha, hb⟩
  · have hv : hexDigitVal c = c.toNat - 48 := by
      unfold hexDigitVal
      rw [if_pos ⟨ha, hb⟩]
    rw [hv]
    unfold hexCharOf
    rw [if_pos (by omega)]
    have e : 48 + (c.toNat - 48) = c.toNat := by omega
    rw [e, Char.ofNat_toNat]
  · have hv : hexDigitVal c = c.toNat - 97 + 10 := by
      unfold hexDigitVal
      rw [if_neg (by omega), if_pos ⟨ha, hb⟩]
    rw [hv]
    unfold hexCharOf
    rw [if_neg (by omega)]
    have e : 87 + (c.toNat - 97 + 10) = c.toNat := by omega
    rw [e, Char.ofNat_toNat]

/-- Hex-encoding the pairwise decoding of an even-length lower-case hex
character list gives back the list. -/
lemma bytesToHexChars_decodeHexPairs :
    ∀ cs : List Char, (∀ c ∈ cs, isLowerHexDigitChar c = true) → cs.length % 2 = 0 →
      bytesToHexChars (decodeHexPairs cs) = cs
  | [], _, _ => rfl
  | [c], _, hlen => by simp at hlen
  | c1 :: c2 :: rest, h, hlen => by
    have h1 := h c1 (by simp)
    have h2 := h c2 (by simp)
    have hrest : ∀ c ∈ rest, isLowerHexDigitChar c = true := fun c hc => h c (by simp [hc])
    have hlen2 : rest.length % 2 = 0 := by
      simp only [List.length_cons] at hlen
      omega
    have hv1 := hexDigitVal_lt c1
    have hv2 := hexDigitVal_lt c2
    show bytesToHexChars ((16 * hexDigitVal c1 + hexDigitVal c2) :: decodeHexPairs rest) = _
    rw [bytesToHexChars, List.flatMap_cons]
    have e1 : (16 * hexDigitVal c1 + hexDigitVal c2) / 16 % 16 = hexDigitVal c1 := by omega
    have e2 : (16 * hexDigitVal c1 + hexDigitVal c2) % 16 = hexDigitVal c2 := by omega
    rw [e1, e2, hexCharOf_hexDigitVal c1 h1, hexCharOf_hexDigitVal c2 h2]
    have := bytesToHexChars_decodeHexPairs rest hrest hlen2
    rw [bytesToHexChars] at this
    rw [this]
    rfl

/-- The range-indexed reference decoder agrees with the structural
pairwise decoder on the first `2 * n` characters. -/
lemma rangeMap_eq_decodeHexPairs :
    ∀ (n : Nat) (cs : List Char), 2 * n ≤ cs.length →
      (List.range n).map (fun i =>
          16 * hexDigitVal (cs.getD (2 * i) ' ') + hexDigitVal (cs.getD (2 * i + 1) ' ')) =
        decodeHexPairs (cs.take (2 * n)) := by
  intro n
  induction n with
  | zero => intro cs _; simp [decodeHexPairs]
  | succ n ih =>
    intro cs h
    rcases cs with _ | ⟨c1, _ | ⟨c2, rest⟩⟩
    · simp only [List.length_nil] at h
      omega
    · simp only [List.length_cons, List.length_nil] at h
      omega
    · have h2 : 2 * n ≤ rest.length := by
        simp only [List.length_cons] at h
        omega
      have htake : (c1 :: c2 :: rest).take (2 * (n + 1)) = c1 :: c2 :: rest.take (2 * n) := by
        have e : 2 * (n + 1) = 2 * n + 1 + 1 := by omega
        rw [e, List.take_succ_cons, List.take_succ_cons]
      rw [htake]
      show _ = (16 * hexDigitVal c1 + hexDigitVal c2) :: decodeHexPairs (rest.take (2 * n))
      rw [List.range_succ_eq_map, List.map_cons, List.map_map]
      refine congrArg₂ List.cons rfl ?_
      rw [← ih rest h2]
      apply List.map_congr_left
      intro i _
      show 16 * hexDigitVal ((c1 :: c2 :: rest).getD (2 * (i + 1)) ' ') +
          hexDigitVal ((c1 :: c2 :: rest).getD (2 * (i + 1) + 1) ' ') =
        16 * hexDigitVal (rest.getD (2 * i) ' ') + hexDigitVal (rest.getD (2 * i + 1) ' ')
      have e1 : 2 * (i + 1) = 2 * i + 1 + 1 := by omega
      rw [e1]
      simp only [List.getD_cons_succ]

/-- C1: whenever the session-heartbeat loop emits a frame from a token
whose first 64 characters are hex digits, the embedded 32-byte token is
the hex-decoding of those first 64 characters and the embedded expiry is
the session expiry truncated to u32 unix seconds; when those characters
are lower-case hex the token bytes re-encode to exactly the first 64
characters, so the token hex form is a prefix of the session token
string. -/
theorem c1_heartbeat_token_and_expiry (tok : String) (exp : Int) (seq : Nat)
    (hlen : 64 ≤ tok.length)
    (hhex : ∀ c ∈ tok.toList.take 64, isHexDigitChar c = true) :
    heartbeatTick tok exp seq =
      some ⟨hexDecode64 tok, (exp % (2 ^ 32 : Int)).toNat, seq⟩ ∧
    ((∀ c ∈ tok.toList.take 64, isLowerHexDigitChar c = true) →
      bytesToHexChars (tokenBinaryOf tok) = tok.toList.take 64) := by
  have hne : tok ≠ "" := by
    intro h
    subst h
    exact absurd hlen (by decide)
  constructor
  · unfold heartbeatTick
    rw [if_neg hne, if_pos hlen, tokenBinaryOf_eq_hexDecode64 tok hlen hhex]
  · intro hlow
    rw [tokenBinaryOf_eq_hexDecode64 tok hlen hhex]
    have hbridge : hexDecode64 tok = decodeHexPairs (tok.toList.take 64) := by
      unfold hexDecode64 charAtD
      have := rangeMap_eq_decodeHexPairs 32 tok.toList (by rw [toList_length_eq]; omega)
      simpa using this
    rw [hbridge]
    apply bytesToHexChars_decodeHexPairs _ hlow
    rw [List.length_take, toList_length_eq]
    omega

theorem c1_heartbeat_token_and_expiry_witness :
    heartbeatTick "00112233445566778899aabbccddeeff00112233445566778899aabbccddeeff"
        1700000000 3 =
      some ⟨hexDecode64 "00112233445566778899aabbccddeeff00112233445566778899aabbccddeeff",
            ((1700000000 : Int) % (2 ^ 32 : Int)).toNat, 3⟩ ∧
    bytesToHexChars (tokenBinaryOf
        "00112233445566778899aabbccddeeff00112233445566778899aabbccddeeff") =
      ("00112233445566778899aabbccddeeff00112233445566778899aabbccddeeff" : String).toList.take 64 := by
  have h := c1_heartbeat_token_and_expiry
    "00112233445566778899aabbccddeeff00112233445566778899aabbccddeeff" 1700000000 3
    (by decide) (by decide)
  exact ⟨h.1, h.2 (by decide)⟩

lemma getD_drop_nat : ∀ (n : Nat) (l : List Nat) (i : Nat),
    (l.drop n).getD i 0 = l.getD (n + i) 0 := by
  intro n
  induction n with
  | zero => intro l i; simp
  | succ n ih =>
    intro l i
    cases l with
    | nil => simp
    | cons a l2 =>
      have e : n + 1 + i = n + i + 1 := by omega
      rw [List.drop_succ_cons, e, List.getD_cons_succ]
      exact ih l2 i

lemma byteAt_drop (l : List Nat) (n i : Nat) : byteAt (l.drop n) i = byteAt l (n + i) :=
  getD_drop_nat n l i

lemma readU16LE_drop (l : List Nat) (n i : Nat) :
    readU16LE (l.drop n) i = readU16LE l (n + i) := by
  unfold readU16LE
  simp only [byteAt_drop, Nat.add_assoc]

lemma readU64LE_drop (l : List Nat) (n i : Nat) :
    readU64LE (l.drop n) i = readU64LE l (n + i) := by
  unfold readU64LE
  simp only [byteAt_drop, Nat.add_assoc]

/-- Parsing from an offset only looks at the suffix starting there. -/
lemma parseFromOffset_eq_drop (data : List Nat) (offset : Nat) (h : offset ≤ data.length) :
    parseAPIKeyResponseFromOffset data offset =
      parseAPIKeyResponseFromOffset (data.drop offset) 0 := by
  have hcond : ∀ k : Nat, ((data.drop offset).length < k) = (data.length < offset + k) := by
    intro k
    rw [List.length_drop]
    exact propext (by omega)
  have hdd : (data.drop offset).drop 5 = data.drop (offset + 5) := by
    rw [List.drop_drop]
  unfold parseAPIKeyResponseFromOffset
  simp only [Nat.zero_add, byteAt_drop, readU16LE_drop, readU64LE_drop, hcond, hdd,
    Nat.add_zero, Nat.add_assoc]

/-- C9 counterexample: the canonical (unprefixed) failure reply with
error code 0x21 is structurally well formed and parses fine from offset
0, but `ParseAPIKeyResponse` sniffs its third byte as a length-prefixed
variant and rejects the packet. -/
theorem c9_counterexample_sniff_misfire :
    ParseAPIKeyResponse [0x21, 0x01, 0x21] = Except.error "packet incomplete" ∧
    parseAPIKeyResponseFromOffset [0x21, 0x01, 0x21] 0 =
      Except.ok ⟨0x01, 0x21, [], 0⟩ :=
  ⟨rfl, rfl⟩

/-- C9 (amended): a canonical message starting with the type byte 0x21
parses from offset 0 provided its byte at offset 2 is not itself 0x21
(otherwise the legacy sniff fires); a legacy length-prefixed message with
a consistent u16 length parses from offset 2 and yields the same result
as parsing the unprefixed body. -/
theorem c9_parse_apikey_both_encodings :
    (∀ data : List Nat, byteAt data 0 = msgAPIKeyResponse →
      byteAt data 2 ≠ msgAPIKeyResponse →
      ParseAPIKeyResponse data = parseAPIKeyResponseFromOffset data 0) ∧
    (∀ (n : Nat) (body : List Nat), n < 65536 → n ≤ body.length →
      byteAt body 0 = msgAPIKeyResponse →
      ParseAPIKeyResponse (u16le n ++ body) = parseAPIKeyResponseFromOffset body 0) := by
  constructor
  · intro data h0 h2
    rcases data with _ | ⟨b, rest⟩
    · exact absurd h0 (by decide)
    · unfold ParseAPIKeyResponse
      rw [if_neg (by simp), if_neg (fun hand => h2 hand.2), if_pos h0]
  · intro n body hn hbl h0
    have hdata : u16le n ++ body = n % 256 :: n / 256 % 256 :: body := rfl
    rw [hdata]
    unfold ParseAPIKeyResponse
    have hsniff : 3 ≤ (n % 256 :: n / 256 % 256 :: body).length ∧
        byteAt (n % 256 :: n / 256 % 256 :: body) 2 = msgAPIKeyResponse := by
      constructor
      · have hb1 : 1 ≤ body.length := by
          rcases body with _ | _
          · exact absurd h0 (by decide)
          · simp
        simp only [List.length_cons]
        omega
      · exact h0
    rw [if_neg (by simp), if_pos hsniff]
    have hpl : readU16LE (n % 256 :: n / 256 % 256 :: body) 0 = n := by
      show n % 256 + 256 * (n / 256 % 256) = n
      omega
    simp only [hpl]
    rw [if_neg (by simp only [List.length_cons]; omega)]
    rw [parseFromOffset_eq_drop _ 2 (by simp only [List.length_cons]; omega)]
    rfl

theorem c9_parse_apikey_both_encodings_witness :
    ParseAPIKeyResponse [0x21, 0x01, 0x05] =
      parseAPIKeyResponseFromOffset [0x21, 0x01, 0x05] 0 ∧
    ParseAPIKeyResponse (u16le 3 ++ [0x21, 0x01, 0x05]) =
      parseAPIKeyResponseFromOffset [0x21, 0x01, 0x05] 0 :=
  ⟨c9_parse_apikey_both_encodings.1 [0x21, 0x01, 0x05] rfl (by decide),
   c9_parse_apikey_both_encodings.2 3 [0x21, 0x01, 0x05] (by decide) (by decide) rfl⟩

/-- C7 counterexample: swapping the two inputs does not always change
the combined key: when the two concatenations coincide, as for shared
key "ab" and private key "abab", both orders hash the same bytes and the
keys are equal. -/
theorem c7_counterexample_swap_equal_key :
    computeCombinedKey "ab" "abab" = computeCombinedKey "abab" "ab" := by
  have h : ("ab" ++ "abab" : String) = "abab" ++ "ab" := rfl
  unfold computeCombinedKey
  rw [h]

/-- C7 (amended): the combined key is the lower-case hex encoding of
SHA-256 of the concatenation shared-then-secret (hence deterministic, as
a pure function of the two inputs); swapping the two inputs changes the
key whenever SHA-256 separates the two concatenations, as at the inputs
("a", "b"); and when the shared secret is empty the raw secret key is
used as the HMAC key instead. -/
theorem c7_combined_key :
    (∀ sharedKey privateKey : String,
      computeCombinedKey sharedKey privateKey =
        String.mk (bytesToHexChars (sha256 (strBytes (sharedKey ++ privateKey))))) ∧
    computeCombinedKey "a" "b" ≠ computeCombinedKey "b" "a" ∧
    (∀ k : String, authKeyFor "" k = k) ∧
    (∀ s k : String, s ≠ "" → authKeyFor s k = computeCombinedKey s k) := by
  refine ⟨fun s k => rfl, by decide, fun k => by simp [authKeyFor], ?_⟩
  intro s k hs
  unfold authKeyFor
  rw [if_pos hs]

theorem c7_combined_key_witness :
    authKeyFor "shared" "secret" = computeCombinedKey "shared" "secret" ∧
    authKeyFor "" "secret" = "secret" :=
  ⟨c7_combined_key.2.2.2 "shared" "secret" (by decide), c7_combined_key.2.2.1 "secret"⟩

end DroneBridge
